import Mathlib

/-!
Verification development for the interwhisp turn-end prediction head.

This file gives a shallow embedding of the core of src/experiments.ipynb:
the TurnEndClassifier head (linear reduce layers, 1-D convolution stacks,
adaptive max pooling, and the fused feedforward classifier), the
CustomWhisperModel adapter (forward_with_turn_end and from_pretrained),
the TurnEndPipeline (audio loading, trailing-window slicing, and the
single-token decoder seed), and the training loop (train_single_epoch /
train_model) at the level of parameter state.

Modelling conventions:
- Tensor values are rationals (every finite floating-point value is a
  rational; rounding is not modelled).  A hidden-state sequence is a list
  of frames, each frame a list of channel values, i.e. the transposed view
  of a PyTorch [channels, time] tensor; the transpose(1, 2) calls in the
  source are therefore representational no-ops here.
- Operations that raise PyTorch runtime errors (a convolution applied to
  an input shorter than its kernel, a linear layer applied to a vector of
  the wrong width) return none / an error value.
- The frozen Whisper base model, the WhisperFeatureExtractor and librosa
  are external collaborators; they appear as explicit function arguments.
- The sigmoid activation is valued in the reals; it is the only
  noncomputable ingredient.
-/

/-- Frames or parameter vectors: a list of rational values. -/
abbrev Vec : Type := List ℚ

/-- A weight matrix, stored as a list of rows. -/
abbrev Mat : Type := List Vec

/-- Dot product of two vectors (truncating to the shorter one, as zipWith does;
callers guard widths explicitly where PyTorch would raise). -/
def dotQ (w x : Vec) : ℚ := (List.zipWith (fun a b => a * b) w x).sum

/-- Embedding of torch.nn.Linear applied to one vector: each output entry is a
row-dot plus the bias entry. -/
def linear (W : Mat) (b : Vec) (x : Vec) : Vec :=
  List.zipWith (fun row bi => dotQ row x + bi) W b

/-- Linear layer together with PyTorch's width check: applying nn.Linear to an
input whose last dimension differs from in_features raises a runtime shape
error, modelled as none. -/
def linearChecked (W : Mat) (b : Vec) (inDim : Nat) (x : Vec) : Option Vec :=
  if x.length = inDim then some (linear W b x) else none

/-- Embedding of torch.nn.ReLU on one value. -/
def reluQ (x : ℚ) : ℚ := max x 0

/-- Vector of length n with entries drawn from an index-to-value function
(used to model a randomly initialised parameter tensor of a given shape). -/
def mkVec (n : Nat) (f : Nat → ℚ) : Vec := (List.range n).map f

/-- Matrix with m rows of width n, entries drawn from an index function. -/
def mkMat (m n : Nat) (f : Nat → Nat → ℚ) : Mat :=
  (List.range m).map (fun i => mkVec n (f i))

/-- Conv1d weight tensor of shape [outC, k, inC]: for each output channel, a
matrix indexed by kernel position and input channel.  (PyTorch stores
[outC, inC, k]; we keep the kernel-position-major transpose, which changes
nothing about the computed sums.) -/
def mkConvW (outC k inC : Nat) (f : Nat → Nat → Nat → ℚ) : List Mat :=
  (List.range outC).map (fun o => mkMat k inC (f o))

/-- All-zero frame of a given channel count, used for convolution padding. -/
def zeroVec (n : Nat) : Vec := List.replicate n 0

/-- Zero-padding of a frame sequence with p zero frames on each side, as
performed by Conv1d with padding = p. -/
def padFrames (p C : Nat) (input : List Vec) : List Vec :=
  List.replicate p (zeroVec C) ++ input ++ List.replicate p (zeroVec C)

/-- One output frame of a 1-D convolution: for output channel o (row Wo of the
weight tensor, bias entry bo), the sum over kernel positions of the dot
product of the kernel slice with the corresponding input frame in the
window. -/
def convOut (W : List Mat) (b : Vec) (win : List Vec) : Vec :=
  List.zipWith (fun Wo bo => bo + (List.zipWith dotQ Wo win).sum) W b

/-- Embedding of torch.nn.Conv1d over the sequence axis with kernel size k,
stride s and padding p on an input with C channels.  PyTorch raises a runtime
error when the padded input is shorter than the kernel; otherwise the output
has floor((len + 2p - k) / s) + 1 frames. -/
def conv1d (W : List Mat) (b : Vec) (k s p C : Nat) (input : List Vec) :
    Option (List Vec) :=
  let padded := padFrames p C input
  if padded.length < k then none
  else
    some ((List.range ((padded.length - k) / s + 1)).map
      (fun j => convOut W b ((padded.drop (j * s)).take k)))

/-- Embedding of torch.nn.AdaptiveMaxPool1d(1) followed by squeeze(-1): the
componentwise maximum over all frames.  Undefined (none) on an empty
sequence, where PyTorch raises. -/
def poolMax1 : List Vec → Option Vec
  | [] => none
  | f :: fs => some (fs.foldl (fun acc fr => List.zipWith max acc fr) f)

/-- Broadcast of a checked per-frame operation over a frame sequence, failing
if it fails on any frame (PyTorch shape errors abort the whole call). -/
def mapFrames (g : Vec → Option Vec) : List Vec → Option (List Vec)
  | [] => some []
  | f :: fs => do
    let y ← g f
    let ys ← mapFrames g fs
    pure (y :: ys)

/-- Parameters of the TurnEndClassifier head from the notebook: the two
dimension-reduce linear layers, the encoder convolution stack (3 layers,
kernel 5, stride 3, padding 1), the decoder convolution stack (2 layers,
kernel 3, stride 1, padding 1), and the fc head
Linear(2 * hidden, hidden) / ReLU / Linear(hidden, 1) / Sigmoid.
The declared dimensions are recorded alongside the weights, exactly as
nn.Linear records in_features. -/
structure TurnEndClassifier where
  encoder_dim : Nat
  decoder_dim : Nat
  hidden_dim : Nat
  encoder_reduce_W : Mat
  encoder_reduce_b : Vec
  decoder_reduce_W : Mat
  decoder_reduce_b : Vec
  encoder_conv1_W : List Mat
  encoder_conv1_b : Vec
  encoder_conv2_W : List Mat
  encoder_conv2_b : Vec
  encoder_conv3_W : List Mat
  encoder_conv3_b : Vec
  decoder_conv1_W : List Mat
  decoder_conv1_b : Vec
  decoder_conv2_W : List Mat
  decoder_conv2_b : Vec
  fc1_W : Mat
  fc1_b : Vec
  fc2_w : Vec
  fc2_b : ℚ
deriving DecidableEq

/-- Embedding of TurnEndClassifier.__init__(encoder_dim, decoder_dim,
hidden_dim): builds every layer with the declared shapes, drawing initial
values from the function w (the random number stream, kept abstract; its
first argument tags the layer).  The source constructor performs no
validation of the declared dimensions against anything: it always returns a
head. -/
def TurnEndClassifier.init (encoder_dim decoder_dim hidden_dim : Nat)
    (w : Nat → Nat → Nat → Nat → ℚ) : TurnEndClassifier where
  encoder_dim := encoder_dim
  decoder_dim := decoder_dim
  hidden_dim := hidden_dim
  encoder_reduce_W := mkMat hidden_dim encoder_dim (fun i j => w 0 i j 0)
  encoder_reduce_b := mkVec hidden_dim (fun i => w 1 i 0 0)
  decoder_reduce_W := mkMat hidden_dim decoder_dim (fun i j => w 2 i j 0)
  decoder_reduce_b := mkVec hidden_dim (fun i => w 3 i 0 0)
  encoder_conv1_W := mkConvW hidden_dim 5 hidden_dim (w 4)
  encoder_conv1_b := mkVec hidden_dim (fun i => w 5 i 0 0)
  encoder_conv2_W := mkConvW hidden_dim 5 hidden_dim (w 6)
  encoder_conv2_b := mkVec hidden_dim (fun i => w 7 i 0 0)
  encoder_conv3_W := mkConvW hidden_dim 5 hidden_dim (w 8)
  encoder_conv3_b := mkVec hidden_dim (fun i => w 9 i 0 0)
  decoder_conv1_W := mkConvW hidden_dim 3 hidden_dim (w 10)
  decoder_conv1_b := mkVec hidden_dim (fun i => w 11 i 0 0)
  decoder_conv2_W := mkConvW hidden_dim 3 hidden_dim (w 12)
  decoder_conv2_b := mkVec hidden_dim (fun i => w 13 i 0 0)
  fc1_W := mkMat hidden_dim (2 * hidden_dim) (fun i j => w 14 i j 0)
  fc1_b := mkVec hidden_dim (fun i => w 15 i 0 0)
  fc2_w := mkVec hidden_dim (fun j => w 16 0 j 0)
  fc2_b := w 17 0 0 0

/-- Encoder-stream compression path of TurnEndClassifier.forward: the
encoder_reduce linear layer broadcast over time, then the
encoder_conv stack (Conv1d k=5 s=3 p=1 / ReLU, three times), then
encoder_pool (AdaptiveMaxPool1d(1)) and squeeze.  Groups the encoder-side
lines of the source forward in their dataflow order. -/
def TurnEndClassifier.encoderCompress (c : TurnEndClassifier)
    (hidden_states : List Vec) : Option Vec := do
  let r ← mapFrames (linearChecked c.encoder_reduce_W c.encoder_reduce_b c.encoder_dim) hidden_states
  let a1 ← conv1d c.encoder_conv1_W c.encoder_conv1_b 5 3 1 c.hidden_dim r
  let a1r := a1.map (List.map reluQ)
  let a2 ← conv1d c.encoder_conv2_W c.encoder_conv2_b 5 3 1 c.hidden_dim a1r
  let a2r := a2.map (List.map reluQ)
  let a3 ← conv1d c.encoder_conv3_W c.encoder_conv3_b 5 3 1 c.hidden_dim a2r
  let a3r := a3.map (List.map reluQ)
  poolMax1 a3r

/-- Decoder-stream compression path of TurnEndClassifier.forward: the
decoder_reduce linear layer broadcast over token steps, then the
decoder_conv stack (Conv1d k=3 s=1 p=1 / ReLU, twice), then decoder_pool
and squeeze. -/
def TurnEndClassifier.decoderCompress (c : TurnEndClassifier)
    (hidden_states : List Vec) : Option Vec := do
  let r ← mapFrames (linearChecked c.decoder_reduce_W c.decoder_reduce_b c.decoder_dim) hidden_states
  let a1 ← conv1d c.decoder_conv1_W c.decoder_conv1_b 3 1 1 c.hidden_dim r
  let a1r := a1.map (List.map reluQ)
  let a2 ← conv1d c.decoder_conv2_W c.decoder_conv2_b 3 1 1 c.hidden_dim a1r
  let a2r := a2.map (List.map reluQ)
  poolMax1 a2r

/-- Pre-sigmoid part of the fc head applied to the concatenated feature
vector: Linear(2 * hidden, hidden), ReLU, Linear(hidden, 1), then the single
entry of the resulting one-element vector. -/
def TurnEndClassifier.fcLogit (c : TurnEndClassifier) (combined : Vec) :
    Option ℚ := do
  let hv ← linearChecked c.fc1_W c.fc1_b (2 * c.hidden_dim) combined
  let hr := hv.map reluQ
  let out ← linearChecked [c.fc2_w] [c.fc2_b] c.hidden_dim hr
  out.head?

/-- Composition of the whole TurnEndClassifier.forward up to (excluding) the
final Sigmoid activation: compress both streams, concatenate
(torch.cat along the feature dimension), and run the fc head. -/
def TurnEndClassifier.forwardLogit (c : TurnEndClassifier)
    (encoder_outputs decoder_outputs : List Vec) : Option ℚ := do
  let ef ← c.encoderCompress encoder_outputs
  let df ← c.decoderCompress decoder_outputs
  c.fcLogit (ef ++ df)

/-- Real-valued sigmoid applied to a rational logit; the Sigmoid layer that
ends the fc stack. -/
noncomputable def sigmoidQ (q : ℚ) : ℝ := 1 / (1 + Real.exp (-(q : ℝ)))

/-- Output of the fc head (FusionClassifier) on a concatenated input vector:
the fcLogit squashed by the final Sigmoid. -/
noncomputable def TurnEndClassifier.fcProb (c : TurnEndClassifier)
    (combined : Vec) : Option ℝ := (c.fcLogit combined).map sigmoidQ

/-- Embedding of TurnEndClassifier.forward: the sigmoid-squashed logit, i.e.
the turn-end probability for one sample (the source shape [batch, 1],
specialised to a single sample). -/
noncomputable def TurnEndClassifier.forward (c : TurnEndClassifier)
    (encoder_outputs decoder_outputs : List Vec) : Option ℝ :=
  (c.forwardLogit encoder_outputs decoder_outputs).map sigmoidQ

/-- Outputs of the frozen Whisper forward pass with output_hidden_states=True,
restricted to the fields forward_with_turn_end reads:
encoder_last_hidden_state and the tuple of decoder hidden states (of which
the source takes the last entry). -/
structure WhisperOutputs where
  encoder_last_hidden_state : List Vec
  decoder_hidden_states : List (List Vec)
deriving DecidableEq

/-- Errors a forward_with_turn_end call can surface: the assertion that fires
when no turn_end_classifier is attached, a missing decoder hidden-state tuple
from the base model, or a tensor shape error inside the head. -/
inductive CallError where
  | configurationError
  | baseOutputMissing
  | shapeError
deriving DecidableEq

/-- Embedding of CustomWhisperModel: the frozen base model is an opaque
forward function (an external collaborator — its parameters never appear
here), plus the config's decoder_start_token_id and the optional attached
head (None until set, per the source constructor). -/
structure CustomWhisperModel where
  baseForward : List Vec → List ℤ → WhisperOutputs
  decoder_start_token_id : ℤ
  turn_end_classifier : Option TurnEndClassifier

/-- Embedding of CustomWhisperModel.from_pretrained: load the base model via
the external HuggingFace loader (here: take the resulting base forward
function as given) and attach the supplied head.  Nothing else happens — in
particular no parameter of the base model is frozen or otherwise touched. -/
def CustomWhisperModel.fromPretrained
    (baseForward : List Vec → List ℤ → WhisperOutputs)
    (startTokenId : ℤ) (turn_end_classifier : TurnEndClassifier) :
    CustomWhisperModel :=
  { baseForward := baseForward
    decoder_start_token_id := startTokenId
    turn_end_classifier := some turn_end_classifier }

/-- Embedding of CustomWhisperModel.forward_with_turn_end: assert the head is
attached, run the base forward with hidden-state emission, take
encoder_last_hidden_state and decoder_hidden_states[-1], and feed them to the
head.  The assert failure is the configurationError case. -/
noncomputable def forwardWithTurnEnd (m : CustomWhisperModel)
    (input_features : List Vec) (decoder_input_ids : List ℤ) :
    Except CallError (WhisperOutputs × ℝ) :=
  match m.turn_end_classifier with
  | none => .error .configurationError
  | some c =>
    let whisper_outputs := m.baseForward input_features decoder_input_ids
    match whisper_outputs.decoder_hidden_states.getLast? with
    | none => .error .baseOutputMissing
    | some decoder_last =>
      match c.forward whisper_outputs.encoder_last_hidden_state decoder_last with
      | none => .error .shapeError
      | some p => .ok (whisper_outputs, p)

/-- Pipeline constant self.max_duration = 30.0 seconds. -/
def maxDuration : Nat := 30

/-- Pipeline constant self.sampling_rate = 16000 (the rate Whisper expects). -/
def samplingRate : Nat := 16000

/-- Pipeline constant int(self.max_duration * self.sampling_rate). -/
def maxSamples : Nat := maxDuration * samplingRate

/-- Embedding of the Python slice audio_array[-max_samples:]: the trailing
window of at most n samples (the whole array when it is no longer than n). -/
def lastWindow (n : Nat) (xs : List ℚ) : List ℚ := xs.drop (xs.length - n)

/-- An audio file on disk: the rate it was actually recorded at, and its
samples. -/
structure AudioFile where
  actualRate : Nat
  samples : List ℚ
deriving DecidableEq

/-- The two input forms _prepare_audio_features accepts: a file path (loaded
through librosa) or an already-loaded numpy array, which the source uses as
is. -/
inductive AudioInput where
  | file (f : AudioFile)
  | array (samples : List ℚ)
deriving DecidableEq

/-- Failure cases of _prepare_audio_features: only the assert on the sampling
rate returned by librosa.load. -/
inductive PrepError where
  | samplingRateAssert
deriving DecidableEq

/-- External collaborator librosa.load called with an explicit sr value: it
decodes the file and resamples it from its actual rate to the requested
rate, returning the resampled samples together with the requested rate (this
is its documented behaviour whenever sr is not None).  The resampling
algorithm itself is abstract. -/
def librosaLoad (resample : Nat → Nat → List ℚ → List ℚ) (f : AudioFile)
    (sr : Nat) : List ℚ × Nat :=
  (resample f.actualRate sr f.samples, sr)

/-- First half of _prepare_audio_features: obtain the sample array.  For a
file input, load through librosa at self.sampling_rate and assert the
returned rate is 16000; an array input is assumed to be already loaded and
is not inspected at all. -/
def loadAudioArray (resample : Nat → Nat → List ℚ → List ℚ)
    (audio : AudioInput) : Except PrepError (List ℚ) :=
  match audio with
  | .file f =>
    let loaded := librosaLoad resample f samplingRate
    if loaded.2 = 16000 then .ok loaded.1 else .error .samplingRateAssert
  | .array a => .ok a

/-- Embedding of TurnEndPipeline._prepare_audio_features: load (or accept) the
sample array, slice to the trailing max_samples window, and run the external
WhisperFeatureExtractor (abstract) on the result.  The feature extractor
returns no attention mask for Whisper, so the mask branch of the caller is
dead and not modelled. -/
def prepareAudioFeatures (resample : Nat → Nat → List ℚ → List ℚ)
    (featureExtract : List ℚ → List Vec) (audio : AudioInput) :
    Except PrepError (List Vec) :=
  (loadAudioArray resample audio).map
    (fun arr => featureExtract (lastWindow maxSamples arr))

/-- The decoder seed built by TurnEndPipeline.__call__:
torch.tensor([[self.model.config.decoder_start_token_id]]), i.e. exactly one
token. -/
def pipelineDecoderInputIds (m : CustomWhisperModel) : List ℤ :=
  [m.decoder_start_token_id]

/-- Errors of a full pipeline call: a preparation failure or a model-side
failure. -/
inductive PipeError where
  | prep (e : PrepError)
  | model (e : CallError)
deriving DecidableEq

/-- Embedding of TurnEndPipeline.__call__: prepare features, seed the decoder
with the single start token, run forward_with_turn_end, and return the
turn-end probability (squeeze().item() on the [1, 1] output). -/
noncomputable def TurnEndPipeline.call (resample : Nat → Nat → List ℚ → List ℚ)
    (featureExtract : List ℚ → List Vec) (m : CustomWhisperModel)
    (audio : AudioInput) : Except PipeError ℝ :=
  match prepareAudioFeatures resample featureExtract audio with
  | .error e => .error (.prep e)
  | .ok features =>
    match forwardWithTurnEnd m features (pipelineDecoderInputIds m) with
    | .error e => .error (.model e)
    | .ok (_, p) => .ok p

/-- One parameter tensor as the training loop sees it: its value (a whole
tensor, kept abstract as one rational for bit-identity statements), its
accumulated gradient, and its requires_grad flag. -/
structure TensorParam where
  value : ℚ
  grad : ℚ
  requiresGrad : Bool
deriving DecidableEq

/-- The parameter state of the composite model: the frozen Whisper parameters
and the turn_end_classifier parameters, in some fixed flattened order. -/
structure ModelParams where
  baseParams : List TensorParam
  headParams : List TensorParam
deriving DecidableEq

/-- Parameter-level view of CustomWhisperModel.from_pretrained: the base
checkpoint parameters arrive from the external HuggingFace loader exactly as
loaded (PyTorch tensors default to requires_grad = true), the freshly
initialised head parameters are attached, and — exactly as in the source —
no requires_grad flag is modified anywhere. -/
def fromPretrainedParams (loadedBase headInit : List TensorParam) :
    ModelParams :=
  { baseParams := loadedBase, headParams := headInit }

/-- The abstract per-sample quantities the training step consumes: the
gradient contribution loss.backward() would add to each base and head
parameter (functions of the loss, kept abstract), and the Adam update giving
the new value of each optimizer-managed parameter. -/
structure StepFns where
  gradBase : Nat → ℚ
  gradHead : Nat → ℚ
  update : Nat → TensorParam → ℚ

/-- Gradient accumulation of loss.backward(): every parameter with
requires_grad = true receives its gradient contribution added to its
accumulated gradient; parameters with requires_grad = false are untouched.
Values are never modified. -/
def accumGrads (g : Nat → ℚ) : Nat → List TensorParam → List TensorParam
  | _, [] => []
  | i, p :: ps =>
    (if p.requiresGrad then { p with grad := p.grad + g i } else p) ::
      accumGrads g (i + 1) ps

/-- Application of optimizer.step() to the parameters the optimizer manages:
each one gets the new value computed by the update rule. -/
def applyUpdates (u : Nat → TensorParam → ℚ) :
    Nat → List TensorParam → List TensorParam
  | _, [] => []
  | i, p :: ps => { p with value := u i p } :: applyUpdates u (i + 1) ps

/-- optimizer.zero_grad() for optim.Adam(model.turn_end_classifier.parameters()):
zeroes the gradients of the head parameters only — the optimizer never holds
the base parameters, whose gradients are therefore not cleared either. -/
def zeroGradHead (s : ModelParams) : ModelParams :=
  { s with headParams := s.headParams.map (fun p => { p with grad := 0 }) }

/-- loss.backward() over the whole graph: gradients accumulate into every
parameter with requires_grad = true, base model included. -/
def backwardStep (fns : StepFns) (s : ModelParams) : ModelParams :=
  { baseParams := accumGrads fns.gradBase 0 s.baseParams
    headParams := accumGrads fns.gradHead 0 s.headParams }

/-- optimizer.step(): only the head parameters are in the optimizer, so only
their values change. -/
def optimizerStep (fns : StepFns) (s : ModelParams) : ModelParams :=
  { s with headParams := applyUpdates fns.update 0 s.headParams }

/-- One iteration of the loop body of train_single_epoch:
optimizer.zero_grad(); forward and loss (pure, no parameter effect);
loss.backward(); optimizer.step(). -/
def sampleStep (fns : StepFns) (s : ModelParams) : ModelParams :=
  optimizerStep fns (backwardStep fns (zeroGradHead s))

/-- Embedding of train_single_epoch: the loop over (samples, labels) pairs,
each contributing one sampleStep.  The epoch loss bookkeeping returns a
float and touches no parameter, so it is not modelled. -/
def trainSingleEpoch (steps : List StepFns) (s : ModelParams) : ModelParams :=
  steps.foldl (fun st fns => sampleStep fns st) s

/-- Embedding of train_model: the epoch loop, each epoch one
trainSingleEpoch.  The periodic torch.no_grad() evaluation printout reads
parameters without modifying them and is not modelled. -/
def trainModel (epochs : List (List StepFns)) (s : ModelParams) : ModelParams :=
  epochs.foldl (fun st ep => trainSingleEpoch ep st) s

/-! ### Shape and length lemmas -/

@[simp] lemma length_mkVec (n : Nat) (f : Nat → ℚ) : (mkVec n f).length = n := by
  simp [mkVec]

@[simp] lemma length_mkMat (m n : Nat) (f : Nat → Nat → ℚ) :
    (mkMat m n f).length = m := by
  simp [mkMat]

@[simp] lemma length_mkConvW (outC k inC : Nat) (f : Nat → Nat → Nat → ℚ) :
    (mkConvW outC k inC f).length = outC := by
  simp [mkConvW]

lemma length_linear (W : Mat) (b : Vec) (x : Vec) :
    (linear W b x).length = min W.length b.length := by
  simp [linear]

lemma length_convOut (W : List Mat) (b : Vec) (win : List Vec) :
    (convOut W b win).length = min W.length b.length := by
  simp [convOut]

lemma length_padFrames (p C : Nat) (input : List Vec) :
    (padFrames p C input).length = input.length + 2 * p := by
  simp only [padFrames, List.length_append, List.length_replicate]
  omega

lemma widths_map_linear (W : Mat) (b : Vec) (hs : List Vec) :
    ∀ f ∈ hs.map (linear W b), f.length = min W.length b.length := by
  intro f hf
  obtain ⟨g, _, rfl⟩ := List.mem_map.mp hf
  exact length_linear W b g

lemma widths_map_relu (frames : List Vec) (n : Nat)
    (hw : ∀ f ∈ frames, f.length = n) :
    ∀ f ∈ frames.map (List.map reluQ), f.length = n := by
  intro f hf
  obtain ⟨g, hg, rfl⟩ := List.mem_map.mp hf
  simp [hw g hg]

lemma mapFrames_linearChecked (W : Mat) (b : Vec) (n : Nat) (hs : List Vec)
    (h : ∀ f ∈ hs, f.length = n) :
    mapFrames (linearChecked W b n) hs = some (hs.map (linear W b)) := by
  induction hs with
  | nil => rfl
  | cons f fs ih =>
    have hf : f.length = n := h f (List.mem_cons_self _ _)
    simp [mapFrames, linearChecked, hf,
      ih (fun g hg => h g (List.mem_cons_of_mem _ hg))]

lemma conv1d_eq_none (W : List Mat) (b : Vec) (k s p C : Nat) (input : List Vec)
    (h : input.length + 2 * p < k) : conv1d W b k s p C input = none := by
  simp only [conv1d]
  rw [if_pos (by rw [length_padFrames]; omega)]

lemma conv1d_spec (W : List Mat) (b : Vec) (k s p C : Nat) (input : List Vec)
    (h : k ≤ input.length + 2 * p) :
    ∃ out, conv1d W b k s p C input = some out ∧
      out.length = (input.length + 2 * p - k) / s + 1 ∧
      (∀ fr ∈ out, fr.length = min W.length b.length) ∧ out ≠ [] := by
  refine ⟨(List.range (((padFrames p C input).length - k) / s + 1)).map
    (fun j => convOut W b (((padFrames p C input).drop (j * s)).take k)),
    ?_, ?_, ?_, ?_⟩
  · simp only [conv1d]
    rw [if_neg (by rw [length_padFrames]; omega)]
  · rw [List.length_map, List.length_range, length_padFrames]
  · intro fr hfr
    obtain ⟨j, _, rfl⟩ := List.mem_map.mp hfr
    exact length_convOut W b _
  · intro hcon
    rw [List.map_eq_nil_iff, List.range_eq_nil] at hcon
    exact Nat.succ_ne_zero _ hcon

lemma foldl_zipWith_max_length (fs : List Vec) (acc : Vec) (n : Nat)
    (hw : ∀ f ∈ fs, f.length = n) (ha : acc.length = n) :
    (fs.foldl (fun a fr => List.zipWith max a fr) acc).length = n := by
  induction fs generalizing acc with
  | nil => simpa using ha
  | cons f fs ih =>
    simp only [List.foldl_cons]
    refine ih _ (fun g hg => hw g (List.mem_cons_of_mem _ hg)) ?_
    rw [List.length_zipWith, ha, hw f (List.mem_cons_self _ _)]
    omega

lemma poolMax1_some (frames : List Vec) (n : Nat) (hne : frames ≠ [])
    (hw : ∀ f ∈ frames, f.length = n) :
    ∃ v, poolMax1 frames = some v ∧ v.length = n := by
  match frames, hne with
  | f :: fs, _ =>
    refine ⟨_, rfl, ?_⟩
    exact foldl_zipWith_max_length fs f n
      (fun g hg => hw g (List.mem_cons_of_mem _ hg))
      (hw f (List.mem_cons_self _ _))

lemma encoderCompress_init_spec (e d h : Nat) (w : Nat → Nat → Nat → Nat → ℚ)
    (hs : List Vec) (hw : ∀ f ∈ hs, f.length = e) (hL : 27 ≤ hs.length) :
    ∃ v, (TurnEndClassifier.init e d h w).encoderCompress hs = some v ∧
      v.length = h := by
  have hred : mapFrames
      (linearChecked (TurnEndClassifier.init e d h w).encoder_reduce_W
        (TurnEndClassifier.init e d h w).encoder_reduce_b
        (TurnEndClassifier.init e d h w).encoder_dim) hs
      = some (hs.map (linear (TurnEndClassifier.init e d h w).encoder_reduce_W
          (TurnEndClassifier.init e d h w).encoder_reduce_b)) :=
    mapFrames_linearChecked _ _ _ _ hw
  have hminred : min (TurnEndClassifier.init e d h w).encoder_reduce_W.length
      (TurnEndClassifier.init e d h w).encoder_reduce_b.length = h := by
    simp [TurnEndClassifier.init]
  have hmin1 : min (TurnEndClassifier.init e d h w).encoder_conv1_W.length
      (TurnEndClassifier.init e d h w).encoder_conv1_b.length = h := by
    simp [TurnEndClassifier.init]
  have hmin2 : min (TurnEndClassifier.init e d h w).encoder_conv2_W.length
      (TurnEndClassifier.init e d h w).encoder_conv2_b.length = h := by
    simp [TurnEndClassifier.init]
  have hmin3 : min (TurnEndClassifier.init e d h w).encoder_conv3_W.length
      (TurnEndClassifier.init e d h w).encoder_conv3_b.length = h := by
    simp [TurnEndClassifier.init]
  obtain ⟨out1, hc1, hlen1, hwid1, hne1⟩ :=
    conv1d_spec (TurnEndClassifier.init e d h w).encoder_conv1_W
      (TurnEndClassifier.init e d h w).encoder_conv1_b 5 3 1
      (TurnEndClassifier.init e d h w).hidden_dim
      (hs.map (linear (TurnEndClassifier.init e d h w).encoder_reduce_W
        (TurnEndClassifier.init e d h w).encoder_reduce_b))
      (by rw [List.length_map]; omega)
  have hwid1r : ∀ f ∈ out1.map (List.map reluQ), f.length = h :=
    widths_map_relu out1 h (fun f hf => by rw [hwid1 f hf, hmin1])
  obtain ⟨out2, hc2, hlen2, hwid2, hne2⟩ :=
    conv1d_spec (TurnEndClassifier.init e d h w).encoder_conv2_W
      (TurnEndClassifier.init e d h w).encoder_conv2_b 5 3 1
      (TurnEndClassifier.init e d h w).hidden_dim
      (out1.map (List.map reluQ))
      (by rw [List.length_map, hlen1, List.length_map]; omega)
  have hwid2r : ∀ f ∈ out2.map (List.map reluQ), f.length = h :=
    widths_map_relu out2 h (fun f hf => by rw [hwid2 f hf, hmin2])
  obtain ⟨out3, hc3, hlen3, hwid3, hne3⟩ :=
    conv1d_spec (TurnEndClassifier.init e d h w).encoder_conv3_W
      (TurnEndClassifier.init e d h w).encoder_conv3_b 5 3 1
      (TurnEndClassifier.init e d h w).hidden_dim
      (out2.map (List.map reluQ))
      (by
        rw [List.length_map, hlen2, List.length_map, hlen1, List.length_map]
        omega)
  have hwid3r : ∀ f ∈ out3.map (List.map reluQ), f.length = h :=
    widths_map_relu out3 h (fun f hf => by rw [hwid3 f hf, hmin3])
  obtain ⟨v, hv, hvlen⟩ := poolMax1_some (out3.map (List.map reluQ)) h
    (by
      intro hcon
      rw [List.map_eq_nil_iff] at hcon
      exact hne3 hcon)
    hwid3r
  refine ⟨v, ?_, hvlen⟩
  simp only [TurnEndClassifier.encoderCompress, hred, Option.bind_eq_bind,
    Option.some_bind, hc1, hc2, hc3, hv]

lemma decoderCompress_init_spec (e d h : Nat) (w : Nat → Nat → Nat → Nat → ℚ)
    (ds : List Vec) (hw : ∀ f ∈ ds, f.length = d) (hL : 1 ≤ ds.length) :
    ∃ v, (TurnEndClassifier.init e d h w).decoderCompress ds = some v ∧
      v.length = h := by
  have hred : mapFrames
      (linearChecked (TurnEndClassifier.init e d h w).decoder_reduce_W
        (TurnEndClassifier.init e d h w).decoder_reduce_b
        (TurnEndClassifier.init e d h w).decoder_dim) ds
      = some (ds.map (linear (TurnEndClassifier.init e d h w).decoder_reduce_W
          (TurnEndClassifier.init e d h w).decoder_reduce_b)) :=
    mapFrames_linearChecked _ _ _ _ hw
  have hmin1 : min (TurnEndClassifier.init e d h w).decoder_conv1_W.length
      (TurnEndClassifier.init e d h w).decoder_conv1_b.length = h := by
    simp [TurnEndClassifier.init]
  have hmin2 : min (TurnEndClassifier.init e d h w).decoder_conv2_W.length
      (TurnEndClassifier.init e d h w).decoder_conv2_b.length = h := by
    simp [TurnEndClassifier.init]
  obtain ⟨out1, hc1, hlen1, hwid1, hne1⟩ :=
    conv1d_spec (TurnEndClassifier.init e d h w).decoder_conv1_W
      (TurnEndClassifier.init e d h w).decoder_conv1_b 3 1 1
      (TurnEndClassifier.init e d h w).hidden_dim
      (ds.map (linear (TurnEndClassifier.init e d h w).decoder_reduce_W
        (TurnEndClassifier.init e d h w).decoder_reduce_b))
      (by rw [List.length_map]; omega)
  have hwid1r : ∀ f ∈ out1.map (List.map reluQ), f.length = h :=
    widths_map_relu out1 h (fun f hf => by rw [hwid1 f hf, hmin1])
  obtain ⟨out2, hc2, hlen2, hwid2, hne2⟩ :=
    conv1d_spec (TurnEndClassifier.init e d h w).decoder_conv2_W
      (TurnEndClassifier.init e d h w).decoder_conv2_b 3 1 1
      (TurnEndClassifier.init e d h w).hidden_dim
      (out1.map (List.map reluQ))
      (by rw [List.length_map, hlen1, List.length_map]; omega)
  have hwid2r : ∀ f ∈ out2.map (List.map reluQ), f.length = h :=
    widths_map_relu out2 h (fun f hf => by rw [hwid2 f hf, hmin2])
  obtain ⟨v, hv, hvlen⟩ := poolMax1_some (out2.map (List.map reluQ)) h
    (by
      intro hcon
      rw [List.map_eq_nil_iff] at hcon
      exact hne2 hcon)
    hwid2r
  refine ⟨v, ?_, hvlen⟩
  simp only [TurnEndClassifier.decoderCompress, hred, Option.bind_eq_bind,
    Option.some_bind, hc1, hc2, hv]

lemma fcLogit_init_spec (e d h : Nat) (w : Nat → Nat → Nat → Nat → ℚ)
    (v : Vec) (hv : v.length = 2 * h) :
    ∃ q, (TurnEndClassifier.init e d h w).fcLogit v = some q := by
  have hdim : (TurnEndClassifier.init e d h w).hidden_dim = h := rfl
  have h1 : linearChecked (TurnEndClassifier.init e d h w).fc1_W
      (TurnEndClassifier.init e d h w).fc1_b
      (2 * (TurnEndClassifier.init e d h w).hidden_dim) v
      = some (linear (TurnEndClassifier.init e d h w).fc1_W
          (TurnEndClassifier.init e d h w).fc1_b v) := by
    rw [linearChecked, if_pos (by rw [hv, hdim])]
  have hlen : ((linear (TurnEndClassifier.init e d h w).fc1_W
      (TurnEndClassifier.init e d h w).fc1_b v).map reluQ).length = h := by
    rw [List.length_map, length_linear]
    simp [TurnEndClassifier.init]
  have h2 : linearChecked [(TurnEndClassifier.init e d h w).fc2_w]
      [(TurnEndClassifier.init e d h w).fc2_b]
      (TurnEndClassifier.init e d h w).hidden_dim
      ((linear (TurnEndClassifier.init e d h w).fc1_W
        (TurnEndClassifier.init e d h w).fc1_b v).map reluQ)
      = some (linear [(TurnEndClassifier.init e d h w).fc2_w]
          [(TurnEndClassifier.init e d h w).fc2_b]
          ((linear (TurnEndClassifier.init e d h w).fc1_W
            (TurnEndClassifier.init e d h w).fc1_b v).map reluQ)) := by
    rw [linearChecked, if_pos (by rw [hlen, hdim])]
  refine ⟨dotQ (TurnEndClassifier.init e d h w).fc2_w
      ((linear (TurnEndClassifier.init e d h w).fc1_W
        (TurnEndClassifier.init e d h w).fc1_b v).map reluQ) +
      (TurnEndClassifier.init e d h w).fc2_b, ?_⟩
  simp only [TurnEndClassifier.fcLogit, h1, Option.bind_eq_bind,
    Option.some_bind, h2]
  simp [linear]

/-! ### Training-state lemmas -/

lemma accumGrads_map_value (g : Nat → ℚ) (i : Nat) (ps : List TensorParam) :
    ((accumGrads g i ps).map fun p => p.value) = ps.map fun p => p.value := by
  induction ps generalizing i with
  | nil => rfl
  | cons p ps ih =>
    by_cases hp : p.requiresGrad <;> simp [accumGrads, hp, ih]

lemma sampleStep_base_values (fns : StepFns) (s : ModelParams) :
    ((sampleStep fns s).baseParams.map fun p => p.value) =
      s.baseParams.map fun p => p.value := by
  simp [sampleStep, optimizerStep, backwardStep, zeroGradHead,
    accumGrads_map_value]

lemma trainSingleEpoch_cons (fns : StepFns) (steps : List StepFns)
    (s : ModelParams) :
    trainSingleEpoch (fns :: steps) s = trainSingleEpoch steps (sampleStep fns s) :=
  rfl

lemma trainSingleEpoch_base_values (steps : List StepFns) (s : ModelParams) :
    ((trainSingleEpoch steps s).baseParams.map fun p => p.value) =
      s.baseParams.map fun p => p.value := by
  induction steps generalizing s with
  | nil => rfl
  | cons fns steps ih =>
    rw [trainSingleEpoch_cons, ih, sampleStep_base_values]

lemma trainModel_cons (ep : List StepFns) (epochs : List (List StepFns))
    (s : ModelParams) :
    trainModel (ep :: epochs) s = trainModel epochs (trainSingleEpoch ep s) :=
  rfl

lemma trainModel_base_values (epochs : List (List StepFns)) (s : ModelParams) :
    ((trainModel epochs s).baseParams.map fun p => p.value) =
      s.baseParams.map fun p => p.value := by
  induction epochs generalizing s with
  | nil => rfl
  | cons ep epochs ih =>
    rw [trainModel_cons, ih, trainSingleEpoch_base_values]

/-! ### Windowing lemmas -/

lemma lastWindow_of_le (n : Nat) (xs : List ℚ) (h : xs.length ≤ n) :
    lastWindow n xs = xs := by
  rw [lastWindow, Nat.sub_eq_zero_of_le h, List.drop_zero]

lemma lastWindow_append (n : Nat) (xs ys : List ℚ) (h : n ≤ ys.length) :
    lastWindow n (xs ++ ys) = lastWindow n ys := by
  rw [lastWindow, lastWindow, List.length_append,
    show xs.length + ys.length - n = xs.length + (ys.length - n) by omega,
    List.drop_append]

/-! ### Concrete instances shared by witnesses and counterexamples -/

/-- All-zero random stream, for concretely instantiated heads. -/
def w0 : Nat → Nat → Nat → Nat → ℚ := fun _ _ _ _ => 0

/-- Concrete head whose streams are one-dimensional. -/
def c1dim : TurnEndClassifier := TurnEndClassifier.init 1 1 1 w0

/-- Concrete deterministic stand-in for the frozen base model forward:
27 encoder frames of width 1 and one decoder layer holding one frame. -/
def bf0 : List Vec → List ℤ → WhisperOutputs :=
  fun _ _ => ⟨List.replicate 27 [0], [[[0]]]⟩

/-- A model constructed without a head (turn_end_classifier = None). -/
def m0 : CustomWhisperModel := ⟨bf0, 0, none⟩

/-- A model with the concrete head attached through from_pretrained. -/
def m1 : CustomWhisperModel := CustomWhisperModel.fromPretrained bf0 0 c1dim

/-- Identity stand-in for the abstract resampler inside librosa.load. -/
def r0 : Nat → Nat → List ℚ → List ℚ := fun _ _ s => s

/-- Concrete feature-extraction stand-in producing 27 frames of width 1. -/
def fe0 : List ℚ → List Vec := fun _ => List.replicate 27 [0]

/-! ### Claim theorems -/

/-- C1 (confirmed).  Freezing invariant: for every run of train_single_epoch
or train_model — any sample sequence, any epoch count, any gradients the
backward pass produces and any updates Adam computes — every base-model
(Whisper) parameter value is identical to its value before training started.
Only head parameters can change, because the optimizer is built over
model.turn_end_classifier.parameters() alone. -/
theorem training_freezes_base_parameters :
    (∀ (steps : List StepFns) (s : ModelParams),
      ((trainSingleEpoch steps s).baseParams.map fun p => p.value) =
        s.baseParams.map fun p => p.value) ∧
    (∀ (epochs : List (List StepFns)) (s : ModelParams),
      ((trainModel epochs s).baseParams.map fun p => p.value) =
        s.baseParams.map fun p => p.value) :=
  ⟨trainSingleEpoch_base_values, trainModel_base_values⟩

/-- C2 (counterexample).  After from_pretrained attaches the head, a base
parameter loaded with the PyTorch default requires_grad = true is still
trainable, and a single training step accumulates a nonzero gradient into
it — contradicting the claim that attaching the head marks every base-model
parameter non-trainable so that base parameters never accumulate
gradients. -/
theorem fromPretrained_leaves_base_trainable :
    (∃ p ∈ (fromPretrainedParams [⟨1, 0, true⟩] [⟨0, 0, true⟩]).baseParams,
      p.requiresGrad = true) ∧
    ((sampleStep ⟨fun _ => 1, fun _ => 1, fun _ p => p.value⟩
        (fromPretrainedParams [⟨1, 0, true⟩] [⟨0, 0, true⟩])).baseParams.map
      fun p => p.grad) = [1] := by
  refine ⟨⟨⟨1, 0, true⟩, by simp [fromPretrainedParams], rfl⟩, ?_⟩
  simp [sampleStep, optimizerStep, backwardStep, zeroGradHead,
    fromPretrainedParams, accumGrads, applyUpdates]

/-- C2 (amended, proved).  CustomWhisperModel.from_pretrained attaches the
head and passes the loaded base parameters through unchanged — it does not
mark them non-trainable, so they keep whatever requires_grad flags the
loader gave them and gradients can accumulate into them (see the
counterexample).  Base-model drift is nevertheless prevented, because the
optimizer holds only head parameters: training never changes any base
parameter value. -/
theorem fromPretrained_passthrough_base_values_fixed :
    ∀ (loadedBase headInit : List TensorParam) (epochs : List (List StepFns)),
      (fromPretrainedParams loadedBase headInit).baseParams = loadedBase ∧
      ((trainModel epochs
          (fromPretrainedParams loadedBase headInit)).baseParams.map
        fun p => p.value) = loadedBase.map fun p => p.value :=
  fun loadedBase headInit epochs =>
    ⟨rfl,
     trainModel_base_values epochs (fromPretrainedParams loadedBase headInit)⟩

/-- C3 (counterexample).  An audio file actually recorded at 8 kHz passes
_prepare_audio_features without any error: librosa.load, called with
sr = 16000, resamples and returns the requested rate, so the assert on the
returned rate cannot fire; an already-loaded array, declared 16 kHz by
convention, is never rate-checked at all.  No ValidationError occurs on a
sampling-rate mismatch, and file input is implicitly resampled. -/
theorem eightKHz_audio_passes_preparation :
    prepareAudioFeatures r0 (fun a => [a]) (.file ⟨8000, [1]⟩) = .ok [[1]] ∧
    prepareAudioFeatures r0 (fun a => [a]) (.array [1]) = .ok [[1]] := by
  constructor <;>
    simp [prepareAudioFeatures, loadAudioArray, librosaLoad, samplingRate, r0,
      lastWindow, maxSamples, maxDuration, Except.map]

/-- C3 (amended, proved).  The core performs no effective sampling-rate
validation: for every input — a file of any actual rate, or a raw array —
_prepare_audio_features succeeds and returns features, because librosa.load
always returns the requested 16000 rate (implicitly resampling file input
upstream of the assert) and array input is used without any check. -/
theorem prepareAudioFeatures_never_rejects :
    ∀ (resample : Nat → Nat → List ℚ → List ℚ)
      (featureExtract : List ℚ → List Vec) (audio : AudioInput),
      ∃ features,
        prepareAudioFeatures resample featureExtract audio = .ok features := by
  intro r fe a
  cases a with
  | file f =>
    refine ⟨fe (lastWindow maxSamples (r f.actualRate samplingRate f.samples)),
      ?_⟩
    simp [prepareAudioFeatures, loadAudioArray, librosaLoad, samplingRate,
      Except.map]
  | array s =>
    exact ⟨fe (lastWindow maxSamples s),
      by simp [prepareAudioFeatures, loadAudioArray, Except.map]⟩

/-- C4 (confirmed).  Windowing: audio no longer than max_samples
(30 s × 16 kHz) is used in full by _prepare_audio_features, and for audio at
least that long the whole pipeline call is unchanged by prepending arbitrary
extra audio: the returned probability depends only on the trailing
30-second window (the base model being the same deterministic function on
both sides). -/
theorem evaluate_windowing :
    ∀ (resample : Nat → Nat → List ℚ → List ℚ)
      (featureExtract : List ℚ → List Vec) (m : CustomWhisperModel)
      (preAudio audio shortAudio : List ℚ),
      shortAudio.length ≤ maxSamples → maxSamples ≤ audio.length →
      prepareAudioFeatures resample featureExtract (.array shortAudio) =
          .ok (featureExtract shortAudio) ∧
      TurnEndPipeline.call resample featureExtract m
          (.array (preAudio ++ audio)) =
        TurnEndPipeline.call resample featureExtract m (.array audio) := by
  intro r fe m pre audio short hshort hlong
  constructor
  · simp [prepareAudioFeatures, loadAudioArray, Except.map,
      lastWindow_of_le _ _ hshort]
  · simp only [TurnEndPipeline.call, prepareAudioFeatures, loadAudioArray,
      Except.map, lastWindow_append _ _ _ hlong]

/-- Witness for C4 at concrete inputs: empty audio is within the window and
used in full; 480000 samples fill the window exactly, and prepending one
extra sample does not change the pipeline call. -/
theorem evaluate_windowing_witness :
    prepareAudioFeatures r0 fe0 (.array []) = .ok (fe0 []) ∧
    TurnEndPipeline.call r0 fe0 m1 (.array ([1] ++ List.replicate 480000 0)) =
      TurnEndPipeline.call r0 fe0 m1 (.array (List.replicate 480000 0)) :=
  evaluate_windowing r0 fe0 m1 [1] (List.replicate 480000 0) []
    (by simp only [List.length_nil]; exact Nat.zero_le _)
    (by rw [List.length_replicate]; norm_num [maxSamples, maxDuration, samplingRate])

/-- C5 (counterexample).  A hidden-state sequence of length 1 with the
correct feature width makes the encoder compression path fail: after the
reduce layer, the padded sequence (length 3) is still shorter than the first
convolution kernel (5), so the convolution fails — no padding to the
minimum receptive length is ever inserted. -/
theorem encoderCompress_short_input_fails :
    c1dim.encoderCompress [[0]] = none := by
  have hw : ∀ f ∈ [[(0 : ℚ)]], f.length = c1dim.encoder_dim := by
    intro f hf
    simp only [List.mem_singleton] at hf
    subst hf
    rfl
  have hconv : conv1d c1dim.encoder_conv1_W c1dim.encoder_conv1_b 5 3 1
      c1dim.hidden_dim
      ([[(0 : ℚ)]].map (linear c1dim.encoder_reduce_W c1dim.encoder_reduce_b))
      = none :=
    conv1d_eq_none _ _ _ _ _ _ _ (by simp)
  simp only [TurnEndClassifier.encoderCompress,
    mapFrames_linearChecked _ _ _ _ hw, Option.bind_eq_bind, Option.some_bind,
    hconv, Option.none_bind]

/-- C5 (amended, proved).  The compression paths return a fixed-size vector
of width hidden_dim whenever the input is long enough for their convolution
stacks: the encoder path (three Conv1d layers, kernel 5, stride 3,
padding 1) succeeds for every input of at least 27 frames of the declared
width, and the decoder path (two Conv1d layers, kernel 3, stride 1,
padding 1) succeeds for every input of at least 1 frame; in both cases the
sequence reaching the pooling stage is nonempty.  Shorter encoder inputs are
not padded: the first convolution that runs out of length fails (see the
counterexample). -/
theorem compress_output_shapes :
    (∀ (e d h : Nat) (w : Nat → Nat → Nat → Nat → ℚ) (hs : List Vec),
      (∀ f ∈ hs, f.length = e) → 27 ≤ hs.length →
      ∃ v, (TurnEndClassifier.init e d h w).encoderCompress hs = some v ∧
        v.length = h) ∧
    (∀ (e d h : Nat) (w : Nat → Nat → Nat → Nat → ℚ) (ds : List Vec),
      (∀ f ∈ ds, f.length = d) → 1 ≤ ds.length →
      ∃ v, (TurnEndClassifier.init e d h w).decoderCompress ds = some v ∧
        v.length = h) :=
  ⟨encoderCompress_init_spec, decoderCompress_init_spec⟩

/-- Witness for C5: with a one-dimensional head, 27 encoder frames compress
to a single feature, and 2 decoder frames compress to a single feature. -/
theorem compress_output_shapes_witness :
    (∃ v, (TurnEndClassifier.init 1 1 1 w0).encoderCompress
        (List.replicate 27 [0]) = some v ∧ v.length = 1) ∧
    (∃ v, (TurnEndClassifier.init 1 1 1 w0).decoderCompress [[0], [0]] =
        some v ∧ v.length = 1) :=
  ⟨compress_output_shapes.1 1 1 1 w0 (List.replicate 27 [0])
      (by intro f hf; rw [List.eq_of_mem_replicate hf]; rfl) (by simp),
   compress_output_shapes.2 1 1 1 w0 [[0], [0]]
      (by intro f hf; simp at hf; subst hf; rfl) (by simp)⟩

/-- C6 (confirmed).  forward_with_turn_end asserts that a head is attached:
with turn_end_classifier = None every call fails with the configuration
error, and with a head attached that error is unreachable (any remaining
failure is a different error kind). -/
theorem forwardWithTurnEnd_requires_head :
    ∀ (m : CustomWhisperModel) (features : List Vec) (ids : List ℤ),
      (m.turn_end_classifier = none →
        forwardWithTurnEnd m features ids = .error .configurationError) ∧
      (∀ c, m.turn_end_classifier = some c →
        forwardWithTurnEnd m features ids ≠ .error .configurationError) := by
  intro m f ids
  constructor
  · intro h
    simp [forwardWithTurnEnd, h]
  · intro c hc
    simp only [forwardWithTurnEnd, hc]
    cases hdl : (m.baseForward f ids).decoder_hidden_states.getLast? with
    | none => simp
    | some dl =>
      cases hfw : c.forward (m.baseForward f ids).encoder_last_hidden_state dl with
      | none => simp [hfw]
      | some p => simp [hfw]

/-- Witness for C6: the call on the head-less model m0 fails with the
configuration error, while the call on m1 (head attached) never produces
that error. -/
theorem forwardWithTurnEnd_requires_head_witness :
    forwardWithTurnEnd m0 [] [] = .error .configurationError ∧
    forwardWithTurnEnd m1 [] [] ≠ .error .configurationError :=
  ⟨(forwardWithTurnEnd_requires_head m0 [] []).1 rfl,
   (forwardWithTurnEnd_requires_head m1 [] []).2 c1dim rfl⟩

/-- C7 (confirmed).  The fc head — concatenated features through
Linear(2h, h), ReLU, Linear(h, 1) and Sigmoid — always emits a probability:
whenever it produces a value, that value lies in [0, 1], for every head and
every input vector. -/
theorem fcProb_in_unit_interval :
    ∀ (c : TurnEndClassifier) (combined : Vec) (p : ℝ),
      c.fcProb combined = some p → 0 ≤ p ∧ p ≤ 1 := by
  intro c v p hp
  rw [TurnEndClassifier.fcProb] at hp
  cases hq : c.fcLogit v with
  | none => rw [hq] at hp; exact absurd hp (by simp)
  | some q =>
    rw [hq, Option.map_some'] at hp
    have hpq : sigmoidQ q = p := Option.some.inj hp
    subst hpq
    have he : 0 < Real.exp (-(q : ℝ)) := Real.exp_pos _
    constructor
    · rw [sigmoidQ]
      positivity
    · rw [sigmoidQ, div_le_one (by linarith)]
      linarith

/-- Witness for C7: the concrete one-dimensional head emits a value on the
concatenated feature vector of width 2, and that value is in [0, 1]. -/
theorem fcProb_in_unit_interval_witness :
    ∃ p, c1dim.fcProb [0, 0] = some p ∧ 0 ≤ p ∧ p ≤ 1 := by
  obtain ⟨q, hq⟩ := fcLogit_init_spec 1 1 1 w0 [0, 0] (by simp)
  have hq2 : c1dim.fcLogit [0, 0] = some q := hq
  have hp : c1dim.fcProb [0, 0] = some (sigmoidQ q) := by
    rw [TurnEndClassifier.fcProb, hq2, Option.map_some']
  exact ⟨sigmoidQ q, hp, fcProb_in_unit_interval c1dim [0, 0] (sigmoidQ q) hp⟩

/-- C8 (confirmed).  forward_with_turn_end is a pure function of the model
(base forward function, start token, head parameters) and its two inputs:
two calls with identical acoustic features and identical decoder seed tokens
produce identical outputs; the embedding returns the model unchanged, there
is no hidden state and no stochastic layer in the head. -/
theorem forwardWithTurnEnd_deterministic :
    ∀ (m : CustomWhisperModel) (features1 features2 : List Vec)
      (ids1 ids2 : List ℤ),
      features1 = features2 → ids1 = ids2 →
      forwardWithTurnEnd m features1 ids1 =
        forwardWithTurnEnd m features2 ids2 := by
  intro m f1 f2 i1 i2 hf hi
  rw [hf, hi]

/-- Witness for C8: the two identical calls on the concrete model m1
coincide. -/
theorem forwardWithTurnEnd_deterministic_witness :
    forwardWithTurnEnd m1 [] [] = forwardWithTurnEnd m1 [] [] :=
  forwardWithTurnEnd_deterministic m1 [] [] [] [] rfl rfl

/-- C9 (counterexample).  Constructing a head whose declared encoder
dimension (100) disagrees with the base model hidden size (384) raises no
error — construction simply returns the head with the declared dimension
recorded — and the mismatch surfaces only at the first forward call, where
the encoder reduce layer rejects the 384-wide hidden states.  No
DimensionError exists at construction time. -/
theorem no_dimension_check_at_construction :
    (TurnEndClassifier.init 100 384 64 w0).encoder_dim = 100 ∧
    (TurnEndClassifier.init 100 384 64 w0).forwardLogit
      [List.replicate 384 0] [[0]] = none := by
  refine ⟨rfl, ?_⟩
  have hg : linearChecked (TurnEndClassifier.init 100 384 64 w0).encoder_reduce_W
      (TurnEndClassifier.init 100 384 64 w0).encoder_reduce_b
      (TurnEndClassifier.init 100 384 64 w0).encoder_dim
      (List.replicate 384 (0 : ℚ)) = none := by
    rw [linearChecked, if_neg (by rw [List.length_replicate]; decide)]
  have hcomp : (TurnEndClassifier.init 100 384 64 w0).encoderCompress
      [List.replicate 384 (0 : ℚ)] = none := by
    simp only [TurnEndClassifier.encoderCompress, mapFrames, hg,
      Option.bind_eq_bind, Option.none_bind]
  simp only [TurnEndClassifier.forwardLogit, hcomp, Option.bind_eq_bind,
    Option.none_bind]

/-- C9 (amended, proved).  TurnEndClassifier construction performs no
dimension validation — init always returns a head recording the declared
dimensions — and a disagreement between the declared encoder dimension and
the width of the hidden states actually produced by the base model fails at
the first forward call, in the encoder reduce layer. -/
theorem dimension_mismatch_surfaces_at_forward :
    ∀ (e d h : Nat) (w : Nat → Nat → Nat → Nat → ℚ) (frame : Vec)
      (rest dec : List Vec),
      frame.length ≠ e →
      (TurnEndClassifier.init e d h w).encoder_dim = e ∧
      (TurnEndClassifier.init e d h w).forward (frame :: rest) dec = none := by
  intro e d h w frame rest dec hne
  refine ⟨rfl, ?_⟩
  have hg : linearChecked (TurnEndClassifier.init e d h w).encoder_reduce_W
      (TurnEndClassifier.init e d h w).encoder_reduce_b
      (TurnEndClassifier.init e d h w).encoder_dim frame = none := by
    rw [linearChecked, if_neg]
    exact hne
  have hcomp : (TurnEndClassifier.init e d h w).encoderCompress
      (frame :: rest) = none := by
    simp only [TurnEndClassifier.encoderCompress, mapFrames, hg,
      Option.bind_eq_bind, Option.none_bind]
  simp only [TurnEndClassifier.forward, TurnEndClassifier.forwardLogit, hcomp,
    Option.bind_eq_bind, Option.none_bind, Option.map_none']

/-- Witness for C9 (amended): a 1-wide frame against a declared encoder
dimension of 384. -/
theorem dimension_mismatch_surfaces_at_forward_witness :
    (TurnEndClassifier.init 384 384 64 w0).encoder_dim = 384 ∧
    (TurnEndClassifier.init 384 384 64 w0).forward [[0]] [] = none :=
  dimension_mismatch_surfaces_at_forward 384 384 64 w0 [0] [] [] (by decide)

/-- C10 (confirmed).  The pipeline seeds the decoder with exactly one token
(the decoder start token); a Conv1d with kernel 3, stride 1, padding 1
preserves sequence length on every nonempty input; and consequently the
decoder compression path succeeds on a length-1 hidden-state sequence of the
declared width, reaching the pooling stage with a nonempty sequence and
producing a fixed-size vector. -/
theorem pipeline_decoder_seed_and_conv :
    (∀ m : CustomWhisperModel, (pipelineDecoderInputIds m).length = 1) ∧
    (∀ (W : List Mat) (b : Vec) (C : Nat) (input : List Vec),
      1 ≤ input.length →
      ∃ out, conv1d W b 3 1 1 C input = some out ∧
        out.length = input.length) ∧
    (∀ (e d h : Nat) (w : Nat → Nat → Nat → Nat → ℚ) (ds : List Vec),
      (∀ f ∈ ds, f.length = d) → ds.length = 1 →
      ∃ v, (TurnEndClassifier.init e d h w).decoderCompress ds = some v ∧
        v.length = h) := by
  refine ⟨fun m => rfl, ?_, ?_⟩
  · intro W b C input hlen
    obtain ⟨out, hout, hlen2, _, _⟩ := conv1d_spec W b 3 1 1 C input (by omega)
    exact ⟨out, hout, by omega⟩
  · intro e d h w ds hw hlen
    exact decoderCompress_init_spec e d h w ds hw (by omega)

/-- Witness for C10: the concrete model m1, a concrete kernel-3 convolution
on a single frame, and the one-dimensional head on a single decoder
frame. -/
theorem pipeline_decoder_seed_and_conv_witness :
    (pipelineDecoderInputIds m1).length = 1 ∧
    (∃ out, conv1d [] [] 3 1 1 0 [[0]] = some out ∧
      out.length = [[(0 : ℚ)]].length) ∧
    (∃ v, (TurnEndClassifier.init 1 1 1 w0).decoderCompress [[0]] = some v ∧
      v.length = 1) :=
  ⟨pipeline_decoder_seed_and_conv.1 m1,
   pipeline_decoder_seed_and_conv.2.1 [] [] 0 [[0]] (by simp),
   pipeline_decoder_seed_and_conv.2.2 1 1 1 w0 [[0]]
     (by intro f hf; simp at hf; subst hf; rfl) rfl⟩
